import Mathlib

/-!
Shallow embedding of `compiler-core/src/language_server/feedback.rs`:
the `Feedback` value type and the `FeedbackBookKeeper` that turns the
outcome of one compilation pass (compiled paths, warnings, optional fatal
error) into a `Feedback` diff while tracking which files currently show
warnings or errors.

Paths (`PathBuf` in the source) are modelled as `String`.  The Rust
`HashMap<PathBuf, Vec<Diagnostic>>` is modelled as a finite-support
function `String → Option (List Diagnostic)` (extensionally, a hash map is
exactly its lookup function; iteration order of `HashSet::drain` is
unspecified in Rust and unobservable through lookups).  The Rust
`HashSet<PathBuf>` is modelled as `Finset String`.
-/

/-- Modelled from the spec: a source span, part of a diagnostic location.
The location type is produced outside this module; only its `path`
component is inspected here. -/
structure SrcSpan where
  startPos : Nat
  endPos : Nat
deriving DecidableEq, Repr

/-- Modelled from the spec: a diagnostic location — "a file path and span". -/
structure Location where
  path : String
  span : SrcSpan
deriving DecidableEq, Repr

/-- Modelled from the spec: diagnostic severity; a diagnostic renders one
warning or one error. -/
inductive Level where
  | warning
  | error
deriving DecidableEq, Repr

/-- Modelled from the spec: a client-facing diagnostic, "optionally anchored
to a file path and span"; opaque content is modelled as its rendered text.
Supports equality. -/
structure Diagnostic where
  text : String
  level : Level
  location : Option Location
deriving DecidableEq, Repr

/-- Modelled from the spec: a domain warning, an opaque external value that
"converts deterministically to exactly one Diagnostic". -/
structure Warning where
  text : String
  location : Option Location
deriving DecidableEq, Repr

/-- Modelled from the spec: the deterministic conversion of a warning to a
diagnostic (warning severity, same optional location). -/
def Warning.to_diagnostic (w : Warning) : Diagnostic :=
  { text := w.text, level := Level.warning, location := w.location }

/-- Modelled from the spec: a domain error, an opaque external value that
"converts deterministically to exactly one Diagnostic". -/
structure Error where
  text : String
  location : Option Location
deriving DecidableEq, Repr

/-- Modelled from the spec: the deterministic conversion of an error to a
diagnostic (error severity, same optional location). -/
def Error.to_diagnostic (e : Error) : Diagnostic :=
  { text := e.text, level := Level.error, location := e.location }

/-- `Feedback` from feedback.rs: a per-path diagnostic diff plus a list of
path-less messages. -/
structure Feedback where
  diagnostics : String → Option (List Diagnostic)
  messages : List Diagnostic

/-- `Feedback::default()`: empty map and empty message list. -/
def Feedback.default : Feedback :=
  { diagnostics := fun _ => none, messages := [] }

/-- `Feedback::unset_existing_diagnostics`: set the diagnostics for a file
to an empty vector, overwriting any existing entry. -/
def Feedback.unset_existing_diagnostics (f : Feedback) (path : String) : Feedback :=
  { f with diagnostics := fun p => if p = path then some [] else f.diagnostics p }

/-- `Feedback::append_diagnostic`: push a diagnostic onto the entry for
`path`, creating an empty entry first if none exists. -/
def Feedback.append_diagnostic (f : Feedback) (path : String) (d : Diagnostic) : Feedback :=
  { f with diagnostics := fun p =>
      if p = path then some ((f.diagnostics path).getD [] ++ [d]) else f.diagnostics p }

/-- `Feedback::append_message`: push a diagnostic onto the message list. -/
def Feedback.append_message (f : Feedback) (d : Diagnostic) : Feedback :=
  { f with messages := f.messages ++ [d] }

/-- `FeedbackBookKeeper` from feedback.rs: the session state — which files
currently show warnings and which currently show errors. -/
structure FeedbackBookKeeper where
  files_with_warnings : Finset String
  files_with_errors : Finset String

/-- `FeedbackBookKeeper::default()`: both sets empty. -/
def FeedbackBookKeeper.default : FeedbackBookKeeper :=
  { files_with_warnings := ∅, files_with_errors := ∅ }

/-- `FeedbackBookKeeper::insert_warning`: convert the warning; if its
diagnostic carries a path, record the path in `files_with_warnings` and
append the diagnostic to the feedback for that path; otherwise do nothing. -/
def FeedbackBookKeeper.insert_warning (s : FeedbackBookKeeper) (feedback : Feedback)
    (warning : Warning) : FeedbackBookKeeper × Feedback :=
  let diagnostic := warning.to_diagnostic
  match diagnostic.location.map Location.path with
  | some path =>
      ({ s with files_with_warnings := insert path s.files_with_warnings },
       feedback.append_diagnostic path diagnostic)
  | none => (s, feedback)

/-- One step of the first loop of `FeedbackBookKeeper::compiled`: for a
freshly compiled path, if it had warning diagnostics, drop it from
`files_with_warnings` and retract it in the output. -/
def retract_step (sf : FeedbackBookKeeper × Feedback) (path : String) :
    FeedbackBookKeeper × Feedback :=
  if path ∈ sf.1.files_with_warnings then
    ({ sf.1 with files_with_warnings := sf.1.files_with_warnings.erase path },
     sf.2.unset_existing_diagnostics path)
  else sf

/-- The first loop of `FeedbackBookKeeper::compiled`, over all compiled
paths. -/
def retract_compiled (compiledPaths : List String) (sf : FeedbackBookKeeper × Feedback) :
    FeedbackBookKeeper × Feedback :=
  compiledPaths.foldl retract_step sf

/-- The third loop of `FeedbackBookKeeper::compiled`: insert each warning in
order. -/
def insert_warnings (warnings : List Warning) (sf : FeedbackBookKeeper × Feedback) :
    FeedbackBookKeeper × Feedback :=
  warnings.foldl (fun sf w => sf.1.insert_warning sf.2 w) sf

/-- `FeedbackBookKeeper::compiled`: retract entries for recompiled files
that had warnings, drain `files_with_errors` (retracting every member),
then insert the new warnings in order. -/
def FeedbackBookKeeper.compiled (s : FeedbackBookKeeper) (compiledPaths : List String)
    (warnings : List Warning) : FeedbackBookKeeper × Feedback :=
  let sf1 := retract_compiled compiledPaths (s, Feedback.default)
  let sf2 : FeedbackBookKeeper × Feedback :=
    ({ sf1.1 with files_with_errors := ∅ },
     { sf1.2 with diagnostics := fun p =>
         if p ∈ sf1.1.files_with_errors then some [] else sf1.2.diagnostics p })
  insert_warnings warnings sf2

/-- `FeedbackBookKeeper::build_with_error`: run `compiled`, then attach the
error's diagnostic — per path when it has a location, as a message
otherwise. -/
def FeedbackBookKeeper.build_with_error (s : FeedbackBookKeeper) (error : Error)
    (compiledPaths : List String) (warnings : List Warning) :
    FeedbackBookKeeper × Feedback :=
  let diagnostic := error.to_diagnostic
  let sf := s.compiled compiledPaths warnings
  match diagnostic.location.map Location.path with
  | some path =>
      ({ sf.1 with files_with_errors := insert path sf.1.files_with_errors },
       sf.2.append_diagnostic path diagnostic)
  | none => (sf.1, sf.2.append_message diagnostic)

/-- `FeedbackBookKeeper::error`: `build_with_error` with nothing compiled
and no warnings. -/
def FeedbackBookKeeper.error (s : FeedbackBookKeeper) (error : Error) :
    FeedbackBookKeeper × Feedback :=
  s.build_with_error error [] []

/-- The diagnostics, in supply order and with duplicates, of the warnings in
`warnings` whose diagnostic is located at path `P`. -/
def warningDiagsAt (P : String) (warnings : List Warning) : List Diagnostic :=
  (warnings.map Warning.to_diagnostic).filter
    (fun d => decide (d.location.map Location.path = some P))

/-- Whether some warning in `warnings` has a diagnostic located at `P`. -/
def hasWarnAt (P : String) (warnings : List Warning) : Bool :=
  (warnings.map Warning.to_diagnostic).any
    (fun d => decide (d.location.map Location.path = some P))

/-- One bookkeeper operation, for reasoning about whole sessions. -/
inductive BookOp where
  | compiledOp (compiledPaths : List String) (warnings : List Warning)
  | buildWithErrorOp (e : Error) (compiledPaths : List String) (warnings : List Warning)
  | errorOp (e : Error)
deriving Repr

/-- Apply one bookkeeper operation to a state. -/
def runOp (s : FeedbackBookKeeper) : BookOp → FeedbackBookKeeper × Feedback
  | BookOp.compiledOp ps ws => s.compiled ps ws
  | BookOp.buildWithErrorOp e ps ws => s.build_with_error e ps ws
  | BookOp.errorOp e => s.error e

/-- Apply a sequence of bookkeeper operations, collecting the feedbacks in
call order. -/
def runOps (s : FeedbackBookKeeper) : List BookOp → FeedbackBookKeeper × List Feedback
  | [] => (s, [])
  | op :: ops =>
      let sf := runOp s op
      let rest := runOps sf.1 ops
      (rest.1, sf.2 :: rest.2)

/-- Whether an operation touches path `P`'s warning bookkeeping: it either
recompiles `P` or supplies a warning located at `P`. -/
def opRelevant (P : String) : BookOp → Bool
  | BookOp.compiledOp ps ws => decide (P ∈ ps) || hasWarnAt P ws
  | BookOp.buildWithErrorOp _ ps ws => decide (P ∈ ps) || hasWarnAt P ws
  | BookOp.errorOp _ => false

/-- Whether an operation supplies a warning located at `P`. -/
def opWarns (P : String) : BookOp → Bool
  | BookOp.compiledOp _ ws => hasWarnAt P ws
  | BookOp.buildWithErrorOp _ _ ws => hasWarnAt P ws
  | BookOp.errorOp _ => false

/-- Whether, after the operations `ops`, the most recent operation touching
path `P`'s warning bookkeeping supplied a warning for `P` (false when no
operation touched it). -/
def warnTrack (P : String) (ops : List BookOp) : Bool :=
  ops.foldl (fun b op => if opRelevant P op then opWarns P op else b) false

/-- The entry for path `P` in the most recent feedback of `fs` that has an
entry for `P` (the spec's "most recent Feedback affecting that path"). -/
def lastEntryFor (P : String) (fs : List Feedback) : Option (List Diagnostic) :=
  fs.foldl (fun acc f => match f.diagnostics P with | some ds => some ds | none => acc) none

/-- Whether an entry (as returned by `lastEntryFor`) holds at least one
warning-severity diagnostic located at `P`. -/
def entryHasWarning (P : String) : Option (List Diagnostic) → Bool
  | none => false
  | some ds => ds.any (fun d =>
      decide (d.level = Level.warning) && decide (d.location.map Location.path = some P))

/-! ### Unfolding lemmas for the loops -/

theorem retract_compiled_nil (sf : FeedbackBookKeeper × Feedback) :
    retract_compiled [] sf = sf := rfl

theorem retract_compiled_cons (p : String) (rest : List String)
    (sf : FeedbackBookKeeper × Feedback) :
    retract_compiled (p :: rest) sf = retract_compiled rest (retract_step sf p) := rfl

theorem insert_warnings_nil (sf : FeedbackBookKeeper × Feedback) :
    insert_warnings [] sf = sf := rfl

theorem insert_warnings_cons (w : Warning) (rest : List Warning)
    (sf : FeedbackBookKeeper × Feedback) :
    insert_warnings (w :: rest) sf = insert_warnings rest (sf.1.insert_warning sf.2 w) := rfl

theorem compiled_eq (s : FeedbackBookKeeper) (ps : List String) (ws : List Warning) :
    s.compiled ps ws =
      insert_warnings ws
        ({ (retract_compiled ps (s, Feedback.default)).1 with files_with_errors := ∅ },
         { (retract_compiled ps (s, Feedback.default)).2 with diagnostics := fun p =>
             if p ∈ (retract_compiled ps (s, Feedback.default)).1.files_with_errors then some []
             else (retract_compiled ps (s, Feedback.default)).2.diagnostics p }) := rfl

/-! ### The retraction loop -/

theorem retract_step_fwe (sf : FeedbackBookKeeper × Feedback) (p : String) :
    (retract_step sf p).1.files_with_errors = sf.1.files_with_errors := by
  unfold retract_step
  split <;> rfl

theorem retract_step_messages (sf : FeedbackBookKeeper × Feedback) (p : String) :
    (retract_step sf p).2.messages = sf.2.messages := by
  unfold retract_step
  split <;> rfl

theorem retract_compiled_fwe (ps : List String) (sf : FeedbackBookKeeper × Feedback) :
    (retract_compiled ps sf).1.files_with_errors = sf.1.files_with_errors := by
  induction ps generalizing sf with
  | nil => rfl
  | cons p rest ih =>
      rw [retract_compiled_cons, ih, retract_step_fwe]

theorem retract_compiled_messages (ps : List String) (sf : FeedbackBookKeeper × Feedback) :
    (retract_compiled ps sf).2.messages = sf.2.messages := by
  induction ps generalizing sf with
  | nil => rfl
  | cons p rest ih =>
      rw [retract_compiled_cons, ih, retract_step_messages]

theorem retract_compiled_fww (ps : List String) (sf : FeedbackBookKeeper × Feedback)
    (P : String) :
    P ∈ (retract_compiled ps sf).1.files_with_warnings ↔
      P ∈ sf.1.files_with_warnings ∧ P ∉ ps := by
  induction ps generalizing sf with
  | nil => simp [retract_compiled_nil]
  | cons p rest ih =>
      rw [retract_compiled_cons, ih]
      unfold retract_step
      by_cases hp : p ∈ sf.1.files_with_warnings
      · simp only [if_pos hp, Finset.mem_erase, List.mem_cons]
        constructor
        · rintro ⟨⟨hne, hmem⟩, hrest⟩
          exact ⟨hmem, by rintro (rfl | h) <;> [exact hne rfl; exact hrest h]⟩
        · rintro ⟨hmem, hni⟩
          exact ⟨⟨fun h => hni (Or.inl h), hmem⟩, fun h => hni (Or.inr h)⟩
      · simp only [if_neg hp, List.mem_cons]
        constructor
        · rintro ⟨hmem, hrest⟩
          refine ⟨hmem, ?_⟩
          rintro (rfl | h)
          · exact hp hmem
          · exact hrest h
        · rintro ⟨hmem, hni⟩
          exact ⟨hmem, fun h => hni (Or.inr h)⟩

theorem retract_compiled_diag (ps : List String) (sf : FeedbackBookKeeper × Feedback)
    (P : String) :
    (retract_compiled ps sf).2.diagnostics P =
      if P ∈ ps ∧ P ∈ sf.1.files_with_warnings then some []
      else sf.2.diagnostics P := by
  induction ps generalizing sf with
  | nil => simp [retract_compiled_nil]
  | cons p rest ih =>
      rw [retract_compiled_cons, ih]
      unfold retract_step
      by_cases hp : p ∈ sf.1.files_with_warnings
      · simp only [if_pos hp]
        by_cases hPp : P = p
        · subst hPp
          simp only [Feedback.unset_existing_diagnostics, Finset.mem_erase]
          simp [List.mem_cons, hp]
        · simp only [Feedback.unset_existing_diagnostics, Finset.mem_erase]
          simp only [List.mem_cons]
          by_cases hPr : P ∈ rest
          · simp [hPr, hPp, Ne.symm]
          · simp [hPr, hPp, Ne.symm]
      · simp only [if_neg hp, List.mem_cons]
        by_cases hPp : P = p
        · subst hPp
          simp [hp]
        · by_cases hPr : P ∈ rest
          · simp [hPr, hPp]
          · simp [hPr, hPp]

/-! ### The warning-insertion loop -/

theorem insert_warning_none (s : FeedbackBookKeeper) (f : Feedback) (w : Warning)
    (h : w.to_diagnostic.location.map Location.path = none) :
    s.insert_warning f w = (s, f) := by
  simp [FeedbackBookKeeper.insert_warning, h]

theorem insert_warning_some (s : FeedbackBookKeeper) (f : Feedback) (w : Warning) (q : String)
    (h : w.to_diagnostic.location.map Location.path = some q) :
    s.insert_warning f w =
      ({ s with files_with_warnings := insert q s.files_with_warnings },
       f.append_diagnostic q w.to_diagnostic) := by
  simp [FeedbackBookKeeper.insert_warning, h]

theorem hasWarnAt_nil (P : String) : hasWarnAt P [] = false := rfl

theorem hasWarnAt_cons (P : String) (w : Warning) (ws : List Warning) :
    hasWarnAt P (w :: ws) =
      (decide (w.to_diagnostic.location.map Location.path = some P) || hasWarnAt P ws) := by
  simp [hasWarnAt]

theorem warningDiagsAt_nil (P : String) : warningDiagsAt P [] = [] := rfl

theorem warningDiagsAt_cons (P : String) (w : Warning) (ws : List Warning) :
    warningDiagsAt P (w :: ws) =
      if w.to_diagnostic.location.map Location.path = some P then
        w.to_diagnostic :: warningDiagsAt P ws
      else warningDiagsAt P ws := by
  simp only [warningDiagsAt, List.map_cons, List.filter_cons, decide_eq_true_eq]

theorem warningDiagsAt_eq_nil (P : String) (ws : List Warning)
    (h : hasWarnAt P ws = false) : warningDiagsAt P ws = [] := by
  rw [warningDiagsAt, List.filter_eq_nil_iff]
  intro d hd
  simp only [hasWarnAt, List.any_eq_false] at h
  exact h d hd

theorem insert_warnings_fwe (ws : List Warning) (sf : FeedbackBookKeeper × Feedback) :
    (insert_warnings ws sf).1.files_with_errors = sf.1.files_with_errors := by
  induction ws generalizing sf with
  | nil => rfl
  | cons w rest ih =>
      rw [insert_warnings_cons, ih]
      rcases h : w.to_diagnostic.location.map Location.path with _ | q
      · rw [insert_warning_none _ _ _ h]
      · rw [insert_warning_some _ _ _ _ h]

theorem insert_warnings_messages (ws : List Warning) (sf : FeedbackBookKeeper × Feedback) :
    (insert_warnings ws sf).2.messages = sf.2.messages := by
  induction ws generalizing sf with
  | nil => rfl
  | cons w rest ih =>
      rw [insert_warnings_cons, ih]
      rcases h : w.to_diagnostic.location.map Location.path with _ | q
      · rw [insert_warning_none _ _ _ h]
      · rw [insert_warning_some _ _ _ _ h]
        rfl

theorem insert_warnings_fww (ws : List Warning) (sf : FeedbackBookKeeper × Feedback)
    (P : String) :
    P ∈ (insert_warnings ws sf).1.files_with_warnings ↔
      P ∈ sf.1.files_with_warnings ∨ hasWarnAt P ws = true := by
  induction ws generalizing sf with
  | nil => simp [insert_warnings_nil, hasWarnAt_nil]
  | cons w rest ih =>
      rw [insert_warnings_cons, ih, hasWarnAt_cons]
      rcases h : w.to_diagnostic.location.map Location.path with _ | q
      · rw [insert_warning_none _ _ _ h]
        simp
      · rw [insert_warning_some _ _ _ _ h]
        by_cases hq : q = P
        · subst hq
          simp [Finset.mem_insert]
        · simp only [Finset.mem_insert]
          have hPq : ¬(P = q) := fun hc => hq hc.symm
          simp [hPq, hq]

theorem insert_warnings_diag (ws : List Warning) (sf : FeedbackBookKeeper × Feedback)
    (P : String) :
    (insert_warnings ws sf).2.diagnostics P =
      if hasWarnAt P ws = true then
        some ((sf.2.diagnostics P).getD [] ++ warningDiagsAt P ws)
      else sf.2.diagnostics P := by
  induction ws generalizing sf with
  | nil => simp [insert_warnings_nil, hasWarnAt_nil]
  | cons w rest ih =>
      rw [insert_warnings_cons, ih, hasWarnAt_cons, warningDiagsAt_cons]
      rcases h : w.to_diagnostic.location.map Location.path with _ | q
      · simp only [insert_warning_none _ _ _ h]
        simp [h]
      · rw [insert_warning_some _ _ _ _ h]
        by_cases hq : q = P
        · subst hq
          simp only [Feedback.append_diagnostic, if_pos rfl, decide_eq_true_eq]
          by_cases hw : hasWarnAt q rest = true
          · simp [hw, List.append_assoc]
          · simp [hw, warningDiagsAt_eq_nil q rest (by simpa using hw)]
        · have hne : ¬(P = q) := fun hc => hq hc.symm
          have hqP : ¬(w.to_diagnostic.location.map Location.path = some P) := by
            rw [h]
            simp [hq]
          simp only [Feedback.append_diagnostic, if_neg hne]
          simp [hq]

/-! ### Characterization of `compiled` -/

theorem compiled_fww (s : FeedbackBookKeeper) (ps : List String) (ws : List Warning)
    (P : String) :
    P ∈ (s.compiled ps ws).1.files_with_warnings ↔
      (P ∈ s.files_with_warnings ∧ P ∉ ps) ∨ hasWarnAt P ws = true := by
  rw [compiled_eq, insert_warnings_fww]
  dsimp only
  rw [retract_compiled_fww]

theorem compiled_fwe (s : FeedbackBookKeeper) (ps : List String) (ws : List Warning) :
    (s.compiled ps ws).1.files_with_errors = ∅ := by
  rw [compiled_eq, insert_warnings_fwe]

theorem compiled_messages (s : FeedbackBookKeeper) (ps : List String) (ws : List Warning) :
    (s.compiled ps ws).2.messages = [] := by
  rw [compiled_eq, insert_warnings_messages]
  dsimp only
  rw [retract_compiled_messages]
  rfl

theorem compiled_diag (s : FeedbackBookKeeper) (ps : List String) (ws : List Warning)
    (P : String) :
    (s.compiled ps ws).2.diagnostics P =
      if hasWarnAt P ws = true then some (warningDiagsAt P ws)
      else if P ∈ s.files_with_errors ∨ (P ∈ ps ∧ P ∈ s.files_with_warnings) then some []
      else none := by
  rw [compiled_eq, insert_warnings_diag]
  dsimp only
  rw [retract_compiled_fwe, retract_compiled_diag]
  dsimp only [Feedback.default]
  by_cases hw : hasWarnAt P ws = true
  · by_cases he : P ∈ s.files_with_errors
    · simp [hw, he]
    · by_cases hc : P ∈ ps ∧ P ∈ s.files_with_warnings
      · simp [hw, he, hc]
      · simp [hw, he, hc]
  · by_cases he : P ∈ s.files_with_errors
    · simp [hw, he]
    · by_cases hc : P ∈ ps ∧ P ∈ s.files_with_warnings
      · simp [hw, he, hc]
      · simp [hw, he, hc]

/-! ### Characterization of `build_with_error` -/

theorem build_with_error_none (s : FeedbackBookKeeper) (e : Error) (ps : List String)
    (ws : List Warning) (h : e.to_diagnostic.location.map Location.path = none) :
    s.build_with_error e ps ws =
      ((s.compiled ps ws).1, (s.compiled ps ws).2.append_message e.to_diagnostic) := by
  simp [FeedbackBookKeeper.build_with_error, h]

theorem build_with_error_some (s : FeedbackBookKeeper) (e : Error) (ps : List String)
    (ws : List Warning) (q : String)
    (h : e.to_diagnostic.location.map Location.path = some q) :
    s.build_with_error e ps ws =
      ({ (s.compiled ps ws).1 with
           files_with_errors := insert q (s.compiled ps ws).1.files_with_errors },
       (s.compiled ps ws).2.append_diagnostic q e.to_diagnostic) := by
  simp [FeedbackBookKeeper.build_with_error, h]

theorem build_fww (s : FeedbackBookKeeper) (e : Error) (ps : List String) (ws : List Warning)
    (P : String) :
    P ∈ (s.build_with_error e ps ws).1.files_with_warnings ↔
      (P ∈ s.files_with_warnings ∧ P ∉ ps) ∨ hasWarnAt P ws = true := by
  rcases h : e.to_diagnostic.location.map Location.path with _ | q
  · rw [build_with_error_none s e ps ws h]
    exact compiled_fww s ps ws P
  · rw [build_with_error_some s e ps ws q h]
    dsimp only
    exact compiled_fww s ps ws P

theorem build_fwe (s : FeedbackBookKeeper) (e : Error) (ps : List String) (ws : List Warning)
    (P : String) :
    P ∈ (s.build_with_error e ps ws).1.files_with_errors ↔
      e.to_diagnostic.location.map Location.path = some P := by
  rcases h : e.to_diagnostic.location.map Location.path with _ | q
  · rw [build_with_error_none s e ps ws h]
    simp [compiled_fwe]
  · rw [build_with_error_some s e ps ws q h]
    dsimp only
    simp [compiled_fwe, Finset.mem_insert, eq_comm]

theorem build_diag (s : FeedbackBookKeeper) (e : Error) (ps : List String) (ws : List Warning)
    (P : String) :
    (s.build_with_error e ps ws).2.diagnostics P =
      if e.to_diagnostic.location.map Location.path = some P then
        some (((s.compiled ps ws).2.diagnostics P).getD [] ++ [e.to_diagnostic])
      else (s.compiled ps ws).2.diagnostics P := by
  rcases h : e.to_diagnostic.location.map Location.path with _ | q
  · rw [build_with_error_none s e ps ws h]
    simp [Feedback.append_message]
  · rw [build_with_error_some s e ps ws q h]
    dsimp only [Feedback.append_diagnostic]
    by_cases hq : P = q
    · subst hq
      simp
    · have hqP : ¬(q = P) := fun hc => hq hc.symm
      simp [hq, hqP]

theorem build_messages (s : FeedbackBookKeeper) (e : Error) (ps : List String)
    (ws : List Warning) :
    (s.build_with_error e ps ws).2.messages =
      if e.to_diagnostic.location.map Location.path = none then [e.to_diagnostic] else [] := by
  rcases h : e.to_diagnostic.location.map Location.path with _ | q
  · rw [build_with_error_none s e ps ws h]
    simp [Feedback.append_message, compiled_messages]
  · rw [build_with_error_some s e ps ws q h]
    dsimp only
    simp [Feedback.append_diagnostic, compiled_messages]

/-! ### Sessions: sequences of bookkeeper operations -/

theorem runOps_nil (s : FeedbackBookKeeper) : runOps s [] = (s, []) := rfl

theorem runOps_cons_fst (s : FeedbackBookKeeper) (op : BookOp) (ops : List BookOp) :
    (runOps s (op :: ops)).1 = (runOps (runOp s op).1 ops).1 := rfl

theorem runOp_fww (s : FeedbackBookKeeper) (op : BookOp) (P : String) :
    P ∈ (runOp s op).1.files_with_warnings ↔
      (if opRelevant P op = true then opWarns P op = true
       else P ∈ s.files_with_warnings) := by
  cases op with
  | compiledOp ps ws =>
      show P ∈ (s.compiled ps ws).1.files_with_warnings ↔ _
      rw [compiled_fww]
      simp only [opRelevant, opWarns]
      by_cases hw : hasWarnAt P ws = true
      · by_cases hp : P ∈ ps <;> simp [hw, hp]
      · by_cases hp : P ∈ ps <;> simp [hw, hp]
  | buildWithErrorOp e ps ws =>
      show P ∈ (s.build_with_error e ps ws).1.files_with_warnings ↔ _
      rw [build_fww]
      simp only [opRelevant, opWarns]
      by_cases hw : hasWarnAt P ws = true
      · by_cases hp : P ∈ ps <;> simp [hw, hp]
      · by_cases hp : P ∈ ps <;> simp [hw, hp]
  | errorOp e =>
      show P ∈ (s.build_with_error e [] []).1.files_with_warnings ↔ _
      rw [build_fww]
      simp [opRelevant, hasWarnAt_nil]

theorem runOps_fww (ops : List BookOp) (s : FeedbackBookKeeper) (P : String) :
    P ∈ (runOps s ops).1.files_with_warnings ↔
      ops.foldl (fun b op => if opRelevant P op then opWarns P op else b)
        (decide (P ∈ s.files_with_warnings)) = true := by
  induction ops generalizing s with
  | nil => simp [runOps_nil]
  | cons op ops ih =>
      rw [runOps_cons_fst, List.foldl_cons, ih]
      have hinit : decide (P ∈ (runOp s op).1.files_with_warnings) =
          (if opRelevant P op then opWarns P op
           else decide (P ∈ s.files_with_warnings)) := by
        have hthis := runOp_fww s op P
        by_cases hr : opRelevant P op = true
        · rw [if_pos hr] at hthis ⊢
          cases hb : opWarns P op with
          | false =>
              have hm : P ∉ (runOp s op).1.files_with_warnings := by
                intro hmem
                have hf := hthis.mp hmem
                rw [hb] at hf
                exact Bool.false_ne_true hf
              simp [hm]
          | true =>
              have hm : P ∈ (runOp s op).1.files_with_warnings := hthis.mpr hb
              simp [hm]
        · rw [if_neg hr] at hthis ⊢
          exact decide_eq_decide.mpr hthis
      rw [hinit]

/-! ### The claims -/

/-- C1, as stated, fails on the code: with "p" in `files_with_errors`, a
`compiled` call whose warnings list carries a warning located at "p" yields
the entry `[warning diagnostic]` for "p" — not the empty list — although no
error is reinstated for "p" (the call involves no error at all). -/
theorem C1_counterexample :
    ("p" ∈ (⟨∅, {"p"}⟩ : FeedbackBookKeeper).files_with_errors) ∧
    ((⟨∅, {"p"}⟩ : FeedbackBookKeeper).compiled []
        [⟨"w", some ⟨"p", ⟨0, 1⟩⟩⟩]).2.diagnostics "p" ≠ some [] := by
  decide

/-- C1 (amended): for every path P in `files_with_errors` before a call to
`compiled` or `build_with_error`, the returned entry for P is exactly the
call's converted warnings located at P, in order — hence the empty list when
no warning targets P — followed, for `build_with_error`, by the error
diagnostic when it is located at P; and P is not in `files_with_errors`
after the call unless the call's error is located at P.  This holds whether
or not P is a member of the compiled-paths argument. -/
theorem C1_errors_drained (s : FeedbackBookKeeper) (ps : List String) (ws : List Warning)
    (e : Error) (P : String) (he : P ∈ s.files_with_errors) :
    ((s.compiled ps ws).2.diagnostics P = some (warningDiagsAt P ws) ∧
      P ∉ (s.compiled ps ws).1.files_with_errors) ∧
    ((s.build_with_error e ps ws).2.diagnostics P =
        some (warningDiagsAt P ws ++
          (if e.to_diagnostic.location.map Location.path = some P then [e.to_diagnostic]
           else [])) ∧
      (P ∈ (s.build_with_error e ps ws).1.files_with_errors ↔
        e.to_diagnostic.location.map Location.path = some P)) := by
  have hc : (s.compiled ps ws).2.diagnostics P = some (warningDiagsAt P ws) := by
    rw [compiled_diag]
    by_cases hw : hasWarnAt P ws = true
    · simp [hw]
    · simp [hw, he, warningDiagsAt_eq_nil P ws (by simpa using hw)]
  refine ⟨⟨hc, ?_⟩, ?_, build_fwe s e ps ws P⟩
  · rw [compiled_fwe]
    exact Finset.not_mem_empty P
  · rw [build_diag, hc]
    by_cases hloc : e.to_diagnostic.location.map Location.path = some P
    · simp [hloc]
    · simp [hloc]

/-- Witness for C1 (amended) at a concrete input: "p" tracked as erroring,
nothing recompiled, no warnings, a location-less error. -/
theorem C1_errors_drained_witness :
    ("p" ∈ (⟨∅, {"p"}⟩ : FeedbackBookKeeper).files_with_errors) ∧
    ((((⟨∅, {"p"}⟩ : FeedbackBookKeeper).compiled [] []).2.diagnostics "p" =
        some (warningDiagsAt "p" []) ∧
      "p" ∉ ((⟨∅, {"p"}⟩ : FeedbackBookKeeper).compiled [] []).1.files_with_errors) ∧
    (((⟨∅, {"p"}⟩ : FeedbackBookKeeper).build_with_error ⟨"e", none⟩ [] []).2.diagnostics "p" =
        some (warningDiagsAt "p" [] ++
          (if (⟨"e", none⟩ : Error).to_diagnostic.location.map Location.path = some "p" then
            [(⟨"e", none⟩ : Error).to_diagnostic]
           else [])) ∧
      ("p" ∈ ((⟨∅, {"p"}⟩ : FeedbackBookKeeper).build_with_error
            ⟨"e", none⟩ [] []).1.files_with_errors ↔
        (⟨"e", none⟩ : Error).to_diagnostic.location.map Location.path = some "p"))) :=
  ⟨by decide, C1_errors_drained ⟨∅, {"p"}⟩ [] [] ⟨"e", none⟩ "p" (by decide)⟩

/-- C2, as stated, fails on the code: after emitting a warning at "p" and
then a located error at "p" (with "p" never recompiled), "p" is still in
`files_with_warnings`, yet the most recent `Feedback` affecting "p" — the
error call's, whose entry for "p" is the error diagnostic alone — ended with
no warning diagnostic for "p", and nothing since retracted anything. -/
theorem C2_counterexample :
    ("p" ∈ (runOps FeedbackBookKeeper.default
        [BookOp.compiledOp [] [⟨"w", some ⟨"p", ⟨0, 1⟩⟩⟩],
         BookOp.buildWithErrorOp ⟨"e", some ⟨"p", ⟨0, 1⟩⟩⟩ [] []]).1.files_with_warnings) ∧
    entryHasWarning "p" (lastEntryFor "p" (runOps FeedbackBookKeeper.default
        [BookOp.compiledOp [] [⟨"w", some ⟨"p", ⟨0, 1⟩⟩⟩],
         BookOp.buildWithErrorOp ⟨"e", some ⟨"p", ⟨0, 1⟩⟩⟩ [] []]).2) = false := by
  decide

/-- C2 (amended): after every sequence of bookkeeper operations starting
from the default state, a path is in `files_with_warnings` iff the most
recent operation that either recompiled it or supplied a warning located at
it supplied such a warning (`warnTrack`); attaching or draining error
diagnostics for the path never updates `files_with_warnings`. -/
theorem C2_warnings_tracking (ops : List BookOp) (P : String) :
    P ∈ (runOps FeedbackBookKeeper.default ops).1.files_with_warnings ↔
      warnTrack P ops = true := by
  rw [runOps_fww]
  have h0 : decide (P ∈ FeedbackBookKeeper.default.files_with_warnings) = false := by
    simp [FeedbackBookKeeper.default]
  rw [h0]
  simp only [warnTrack]

/-- C3: a path with tracked warnings that is recompiled without any new
warning targeting it gets the entry `[]` and leaves `files_with_warnings`. -/
theorem C3_recompiled_warning_retracted (s : FeedbackBookKeeper) (ps : List String)
    (ws : List Warning) (P : String) (hmem : P ∈ s.files_with_warnings) (hps : P ∈ ps)
    (hw : hasWarnAt P ws = false) :
    (s.compiled ps ws).2.diagnostics P = some [] ∧
      P ∉ (s.compiled ps ws).1.files_with_warnings := by
  constructor
  · rw [compiled_diag]
    simp [hw, hps, hmem]
  · rw [compiled_fww]
    simp [hw, hps]

/-- Witness for C3 at a concrete input. -/
theorem C3_recompiled_warning_retracted_witness :
    ("p" ∈ (⟨{"p"}, ∅⟩ : FeedbackBookKeeper).files_with_warnings) ∧
    ("p" ∈ ["p"]) ∧ hasWarnAt "p" [] = false ∧
    (((⟨{"p"}, ∅⟩ : FeedbackBookKeeper).compiled ["p"] []).2.diagnostics "p" = some [] ∧
      "p" ∉ ((⟨{"p"}, ∅⟩ : FeedbackBookKeeper).compiled ["p"] []).1.files_with_warnings) :=
  ⟨by decide, by decide, by decide,
   C3_recompiled_warning_retracted ⟨{"p"}, ∅⟩ ["p"] [] "p" (by decide) (by decide) (by decide)⟩

/-- C4: in `build_with_error`, a located error's path is added to
`files_with_errors` and its diagnostic is appended to that path's entry (on
top of whatever the underlying `compiled` pass produced for it); a
location-less error is appended to `messages` and the diagnostics map is
exactly the one `compiled` produced, so such a diagnostic appears under no
key. -/
theorem C4_error_attachment (s : FeedbackBookKeeper) (ps : List String) (ws : List Warning)
    (e : Error) :
    match e.to_diagnostic.location.map Location.path with
    | some path =>
        path ∈ (s.build_with_error e ps ws).1.files_with_errors ∧
        (s.build_with_error e ps ws).2.diagnostics path =
          some (((s.compiled ps ws).2.diagnostics path).getD [] ++ [e.to_diagnostic])
    | none =>
        (s.build_with_error e ps ws).2.messages =
          (s.compiled ps ws).2.messages ++ [e.to_diagnostic] ∧
        ∀ p, (s.build_with_error e ps ws).2.diagnostics p =
          (s.compiled ps ws).2.diagnostics p := by
  rcases h : e.to_diagnostic.location.map Location.path with _ | q
  · refine ⟨?_, ?_⟩
    · rw [build_with_error_none s e ps ws h]
      rfl
    · intro p
      rw [build_with_error_none s e ps ws h]
      rfl
  · refine ⟨?_, ?_⟩
    · rw [build_fwe]
      exact h
    · rw [build_diag, h]
      simp

/-- C5: a path tracked in neither set, recompiled alone with no warnings,
gets no entry at all in the output. -/
theorem C5_untracked_no_entry (s : FeedbackBookKeeper) (P : String)
    (hw : P ∉ s.files_with_warnings) (he : P ∉ s.files_with_errors) :
    (s.compiled [P] []).2.diagnostics P = none := by
  rw [compiled_diag]
  simp [hasWarnAt_nil, hw, he]

/-- Witness for C5 at a concrete input. -/
theorem C5_untracked_no_entry_witness :
    ("q" ∉ (⟨{"p"}, ∅⟩ : FeedbackBookKeeper).files_with_warnings) ∧
    ("q" ∉ (⟨{"p"}, ∅⟩ : FeedbackBookKeeper).files_with_errors) ∧
    ((⟨{"p"}, ∅⟩ : FeedbackBookKeeper).compiled ["q"] []).2.diagnostics "q" = none :=
  ⟨by decide, by decide, C5_untracked_no_entry ⟨{"p"}, ∅⟩ "q" (by decide) (by decide)⟩

/-- C6: a path's entry after `compiled` lists the converted warnings located
at it in supply order with duplicates; `append_diagnostic` appends at the
end, never dropping or reordering existing entries, and leaves every other
path's entry unchanged. -/
theorem C6_order_preservation (s : FeedbackBookKeeper) (ps : List String) (ws : List Warning)
    (P : String) (f : Feedback) (d : Diagnostic) :
    (hasWarnAt P ws = true →
      (s.compiled ps ws).2.diagnostics P = some (warningDiagsAt P ws)) ∧
    (f.append_diagnostic P d).diagnostics P = some ((f.diagnostics P).getD [] ++ [d]) ∧
    (∀ q, q ≠ P → (f.append_diagnostic P d).diagnostics q = f.diagnostics q) := by
  refine ⟨?_, ?_, ?_⟩
  · intro hw
    rw [compiled_diag]
    simp [hw]
  · simp [Feedback.append_diagnostic]
  · intro q hq
    simp [Feedback.append_diagnostic, hq]

/-- Witness for C6 at a concrete input: two warnings at "p" in order, and an
appended diagnostic. -/
theorem C6_order_preservation_witness :
    hasWarnAt "p" [⟨"w1", some ⟨"p", ⟨0, 1⟩⟩⟩, ⟨"w2", some ⟨"p", ⟨2, 3⟩⟩⟩] = true ∧
    (FeedbackBookKeeper.default.compiled []
        [⟨"w1", some ⟨"p", ⟨0, 1⟩⟩⟩, ⟨"w2", some ⟨"p", ⟨2, 3⟩⟩⟩]).2.diagnostics "p" =
      some (warningDiagsAt "p" [⟨"w1", some ⟨"p", ⟨0, 1⟩⟩⟩, ⟨"w2", some ⟨"p", ⟨2, 3⟩⟩⟩]) ∧
    (Feedback.default.append_diagnostic "p" ⟨"d", Level.error, none⟩).diagnostics "p" =
      some ((Feedback.default.diagnostics "p").getD [] ++ [⟨"d", Level.error, none⟩]) ∧
    ("q" ≠ "p") ∧
    (Feedback.default.append_diagnostic "p" ⟨"d", Level.error, none⟩).diagnostics "q" =
      Feedback.default.diagnostics "q" :=
  ⟨by decide,
   (C6_order_preservation FeedbackBookKeeper.default []
      [⟨"w1", some ⟨"p", ⟨0, 1⟩⟩⟩, ⟨"w2", some ⟨"p", ⟨2, 3⟩⟩⟩] "p"
      Feedback.default ⟨"d", Level.error, none⟩).1 (by decide),
   (C6_order_preservation FeedbackBookKeeper.default []
      [⟨"w1", some ⟨"p", ⟨0, 1⟩⟩⟩, ⟨"w2", some ⟨"p", ⟨2, 3⟩⟩⟩] "p"
      Feedback.default ⟨"d", Level.error, none⟩).2.1,
   by decide,
   (C6_order_preservation FeedbackBookKeeper.default []
      [⟨"w1", some ⟨"p", ⟨0, 1⟩⟩⟩, ⟨"w2", some ⟨"p", ⟨2, 3⟩⟩⟩] "p"
      Feedback.default ⟨"d", Level.error, none⟩).2.2 "q" (by decide)⟩

/-- C7: `error e` is exactly `build_with_error e [] []`, returning the same
feedback and leaving the same state. -/
theorem C7_error_is_build_with_error (s : FeedbackBookKeeper) (e : Error) :
    s.error e = s.build_with_error e [] [] := rfl

/-- C8: the three operations are deterministic state transitions: equal
pre-call set contents and equal arguments give equal post-call states and
equal returned feedback values. -/
theorem C8_deterministic (s1 s2 : FeedbackBookKeeper) (ps : List String) (ws : List Warning)
    (e : Error) (hw : s1.files_with_warnings = s2.files_with_warnings)
    (he : s1.files_with_errors = s2.files_with_errors) :
    s1.compiled ps ws = s2.compiled ps ws ∧
    s1.build_with_error e ps ws = s2.build_with_error e ps ws ∧
    s1.error e = s2.error e := by
  have hs : s1 = s2 := by
    cases s1
    cases s2
    simp_all
  subst hs
  exact ⟨rfl, rfl, rfl⟩

/-- Witness for C8 at a concrete input. -/
theorem C8_deterministic_witness :
    ((⟨{"p"}, ∅⟩ : FeedbackBookKeeper).files_with_warnings =
      (⟨{"p"}, ∅⟩ : FeedbackBookKeeper).files_with_warnings) ∧
    ((⟨{"p"}, ∅⟩ : FeedbackBookKeeper).files_with_errors =
      (⟨{"p"}, ∅⟩ : FeedbackBookKeeper).files_with_errors) ∧
    ((⟨{"p"}, ∅⟩ : FeedbackBookKeeper).compiled ["p"] [] =
        (⟨{"p"}, ∅⟩ : FeedbackBookKeeper).compiled ["p"] [] ∧
      (⟨{"p"}, ∅⟩ : FeedbackBookKeeper).build_with_error ⟨"e", none⟩ ["p"] [] =
        (⟨{"p"}, ∅⟩ : FeedbackBookKeeper).build_with_error ⟨"e", none⟩ ["p"] [] ∧
      (⟨{"p"}, ∅⟩ : FeedbackBookKeeper).error ⟨"e", none⟩ =
        (⟨{"p"}, ∅⟩ : FeedbackBookKeeper).error ⟨"e", none⟩) :=
  ⟨rfl, rfl, C8_deterministic ⟨{"p"}, ∅⟩ ⟨{"p"}, ∅⟩ ["p"] [] ⟨"e", none⟩ rfl rfl⟩

/-- C9: a warning whose converted diagnostic carries no path is silently
discarded by `insert_warning`: state and feedback come back unchanged. -/
theorem C9_locationless_warning_discarded (s : FeedbackBookKeeper) (f : Feedback)
    (w : Warning) (h : w.to_diagnostic.location = none) :
    s.insert_warning f w = (s, f) :=
  insert_warning_none s f w (by rw [h]; rfl)

/-- Witness for C9 at a concrete input. -/
theorem C9_locationless_warning_discarded_witness :
    ((⟨"w", none⟩ : Warning).to_diagnostic.location = none) ∧
    FeedbackBookKeeper.default.insert_warning Feedback.default ⟨"w", none⟩ =
      (FeedbackBookKeeper.default, Feedback.default) :=
  ⟨rfl, C9_locationless_warning_discarded FeedbackBookKeeper.default Feedback.default
    ⟨"w", none⟩ rfl⟩

/-- C10: `compiled` always returns an empty messages list, for every state,
every compiled-paths argument and every warnings list. -/
theorem C10_compiled_no_messages (s : FeedbackBookKeeper) (ps : List String)
    (ws : List Warning) :
    (s.compiled ps ws).2.messages = [] :=
  compiled_messages s ps ws
